import Mathlib

/-!
# Verification of the LAPD crime-analysis aggregations

Shallow embedding of `src/main.py` (a pandas script computing three
descriptive statistics over a table of crime records) together with proofs
about the embedded functions.

Modelling conventions:
* a row of the loaded CSV becomes an `IncidentRecord`; only the fields the
  aggregations read are modelled (`TIME OCC` as a string, `AREA NAME` as a
  string, `Vict Age` as `Option Int`, `none` standing for a missing/NaN age);
* `Series.value_counts()` is modelled as a tally of the values in order of
  first appearance followed by a stable sort on descending counts (pandas
  computes the counts with a hash table that preserves first-appearance
  order of the keys and sorts with `kind="stable"`);
* `Series.idxmax()` is modelled as the first key attaining the maximal
  count, which is what pandas returns;
* `.astype(int)` on a string column raises `ValueError` on the first
  element Python's `int` cannot parse; this is modelled with `Except`;
* python string helpers (`str.zfill`, slicing, `int(...)`) are modelled on
  `List Char`.  `int(...)` is modelled for strings made of optional
  surrounding spaces, an optional sign and digits (underscore digit
  separators, which cannot occur in this data, are not modelled).
-/

/-- One row of the source table.  Only the columns the three aggregations
read are modelled; the two date columns are parsed at load time and never
used by the aggregation passes. -/
structure IncidentRecord where
  occurredTime : String
  areaName : String
  victAge : Option Int
  deriving DecidableEq, Repr

/-! ## Python string/number primitives used on line 34 of `main.py` -/

/-- Value of a digit string, most significant first (`int` on digits). -/
def digitsVal (ds : List Char) : Nat :=
  ds.foldl (fun n c => 10 * n + (c.toNat - 48)) 0

/-- Python `str.zfill(w)`: left-pad with `'0'` up to width `w`; a leading
sign stays in front of the padding. -/
def pyZfill (w : Nat) (s : List Char) : List Char :=
  if w ≤ s.length then s
  else if s.head? = some '+' ∨ s.head? = some '-' then
    s.take 1 ++ (List.replicate (w - s.length) '0' ++ s.drop 1)
  else List.replicate (w - s.length) '0' ++ s

/-- Strip leading and trailing ASCII spaces (Python `int` ignores
surrounding whitespace). -/
def trimSpaces (cs : List Char) : List Char :=
  ((cs.dropWhile (· = ' ')).reverse.dropWhile (· = ' ')).reverse

/-- Python `int(s)` on a character list: optional surrounding spaces, an
optional single sign, then a nonempty run of digits; `none` models the
`ValueError` raised otherwise. -/
def pyInt (cs : List Char) : Option Int :=
  match trimSpaces cs with
  | [] => none
  | c :: ds =>
    if c = '+' then
      if ds ≠ [] ∧ ds.all Char.isDigit then some (digitsVal ds) else none
    else if c = '-' then
      if ds ≠ [] ∧ ds.all Char.isDigit then some (-(digitsVal ds : Int)) else none
    else if (c :: ds).all Char.isDigit then some (digitsVal (c :: ds)) else none

/-- Line 34: `crimes['TIME OCC'].str.zfill(4).str[:2].astype(int)` applied
to one cell — zero-pad to four characters, keep the first two, parse as an
integer. -/
def hourOf (s : String) : Option Int :=
  pyInt ((pyZfill 4 s.data).take 2)

/-- The data model's well-formedness assumption on `occurredTime` (spec §3:
a 24-hour clock time encoded as a 4-digit string): four digit characters
whose leading two encode an hour of at most 23. -/
def MilitaryTime (s : String) : Prop :=
  s.data.length = 4 ∧ (∀ c ∈ s.data, c.isDigit) ∧ digitsVal (s.data.take 2) ≤ 23

instance (s : String) : Decidable (MilitaryTime s) :=
  decidable_of_iff
    (s.data.length = 4 ∧ (∀ c ∈ s.data, c.isDigit) ∧ digitsVal (s.data.take 2) ≤ 23)
    Iff.rfl

/-- The message of the `ValueError` that `astype(int)` raises. -/
def intParseErr (s : String) : String :=
  "invalid literal for int() with base 10: " ++ s

/-- The whole `HOUR OCC` column of line 34: `astype(int)` converts
elementwise and raises on the first cell that does not parse. -/
def extractHours : List IncidentRecord → Except String (List Int)
  | [] => .ok []
  | r :: rs =>
    match hourOf r.occurredTime with
    | none => .error (intParseErr r.occurredTime)
    | some h =>
      match extractHours rs with
      | .error e => .error e
      | .ok hs => .ok (h :: hs)

/-- The table after line 34: each record together with its `HOUR OCC`
column value. -/
def deriveTable (rs : List IncidentRecord) : Except String (List (IncidentRecord × Int)) :=
  (extractHours rs).map (fun hs => rs.zip hs)

/-! ## `value_counts`, `sort_index`, `idxmax` -/

/-- The distinct values of a list in order of first appearance. -/
def dedupFirst {α : Type} [DecidableEq α] : List α → List α
  | [] => []
  | x :: xs => x :: (dedupFirst xs).filter (fun y => y ≠ x)

/-- The counting core of `Series.value_counts()`: each distinct value with
its number of occurrences, keys in order of first appearance (pandas builds
the counts with a hash table that preserves first-appearance order). -/
def tally {α : Type} [DecidableEq α] (xs : List α) : List (α × Nat) :=
  (dedupFirst xs).map (fun a => (a, xs.count a))

/-- Key order used by `sort_index()`: ascending on the hour. -/
def keyLE (p q : Int × Nat) : Prop := p.1 ≤ q.1

instance : DecidableRel keyLE := fun p q => inferInstanceAs (Decidable (p.1 ≤ q.1))

instance : IsTotal (Int × Nat) keyLE := ⟨fun p q => Int.le_total p.1 q.1⟩

instance : IsTrans (Int × Nat) keyLE := ⟨fun _ _ _ h h' => le_trans h h'⟩

/-- Count order used by `value_counts()`' default sort: descending on the
count; `insertionSort` with this relation is a stable descending sort,
matching pandas' `sort_values(ascending=False, kind="stable")`. -/
def cntGE (p q : String × Nat) : Prop := q.2 ≤ p.2

instance : DecidableRel cntGE := fun p q => inferInstanceAs (Decidable (q.2 ≤ p.2))

instance : IsTotal (String × Nat) cntGE := ⟨fun p q => Nat.le_total q.2 p.2⟩

instance : IsTrans (String × Nat) cntGE := ⟨fun _ _ _ h h' => le_trans h' h⟩

/-- Largest count occurring in a counted list (0 for the empty list). -/
def maxCount {α : Type} : List (α × Nat) → Nat
  | [] => 0
  | p :: l => max p.2 (maxCount l)

/-- First pair attaining the maximal count. -/
def firstMaxPair {α : Type} : List (α × Nat) → Option (α × Nat)
  | [] => none
  | p :: l => if maxCount l ≤ p.2 then some p else firstMaxPair l

/-- `Series.idxmax()`: the first index whose value is the maximum; on an
empty series pandas raises, modelled by `none`. -/
def idxmax {α : Type} (l : List (α × Nat)) : Option α :=
  (firstMaxPair l).map Prod.fst

/-- Message of the `ValueError` pandas raises for `idxmax` on an empty
series. -/
def emptyArgmaxMsg : String := "attempt to get argmax of an empty sequence"

/-! ## Task 1: peak crime hour (lines 34–40) -/

/-- Line 37: `crimes['HOUR OCC'].value_counts().sort_index()`. -/
def hourCounts (hs : List Int) : List (Int × Nat) :=
  List.insertionSort keyLE (tally hs)

/-- Lines 34–37 as a pipeline from the raw records. -/
def hourCountsOf (rs : List IncidentRecord) : Except String (List (Int × Nat)) :=
  (extractHours rs).map hourCounts

/-- Line 40: `hour_counts.idxmax()`, after the column extraction of
line 34; an empty series makes `idxmax` raise. -/
def peakCrimeHour (rs : List IncidentRecord) : Except String Int := do
  let hs ← extractHours rs
  match idxmax (hourCounts hs) with
  | some h => .ok h
  | none => .error emptyArgmaxMsg

/-! ## Task 2: peak night crime location (lines 73–80) -/

/-- Line 73: `night_hours = [22, 23, 0, 1, 2, 3]`. -/
def nightHours : List Int := [22, 23, 0, 1, 2, 3]

/-- Lines 74–77, the grouped column: area names of the rows whose
`HOUR OCC` is in the night window. -/
def nightAreas (t : List (IncidentRecord × Int)) : List String :=
  (t.filter (fun p => nightHours.contains p.2)).map (fun p => p.1.areaName)

/-- Line 77: `night_crimes['AREA NAME'].value_counts()` (descending counts,
stable). -/
def nightCrimeByArea (t : List (IncidentRecord × Int)) : List (String × Nat) :=
  List.insertionSort cntGE (tally (nightAreas t))

/-- Line 80: `night_crime_by_area.idxmax()`; `none` models the raise on an
empty series. -/
def peakNightCrimeLocation (t : List (IncidentRecord × Int)) : Option String :=
  idxmax (nightCrimeByArea t)

/-! ## Task 3: victim age groups (lines 113–120, 156–158) -/

/-- Line 114: `age_labels`. -/
def ageLabels : List String :=
  ["0-17", "18-25", "26-34", "35-44", "45-54", "55-64", "65+"]

/-- Line 117: `pd.cut(age, bins=[0,17,25,34,44,54,64,inf], labels, right=True)`
on one cell.  With `right=True` and no `include_lowest`, the intervals are
`(0,17], (17,25], (25,34], (34,44], (44,54], (54,64], (64,∞)`; a value in no
interval (here: any age ≤ 0) and a missing value both yield NaN (`none`). -/
def bracketOf : Option Int → Option String
  | none => none
  | some a =>
    if 0 < a ∧ a ≤ 17 then some "0-17"
    else if 17 < a ∧ a ≤ 25 then some "18-25"
    else if 25 < a ∧ a ≤ 34 then some "26-34"
    else if 34 < a ∧ a ≤ 44 then some "35-44"
    else if 44 < a ∧ a ≤ 54 then some "45-54"
    else if 54 < a ∧ a ≤ 64 then some "55-64"
    else if 64 < a then some "65+"
    else none

/-- Line 117: the whole `age_groups` column. -/
def ageGroups (rs : List IncidentRecord) : List (Option String) :=
  rs.map (fun r => bracketOf r.victAge)

/-- `.reindex(labels, fill_value=0)`: one row per requested label, in the
requested order, count 0 for labels absent from the counted series. -/
def reindexFill (labels : List String) (vc : List (String × Nat)) : List (String × Nat) :=
  labels.map (fun l => (l, (vc.lookup l).getD 0))

/-- Line 120: `age_groups.value_counts().reindex(age_labels, fill_value=0)`
(`value_counts` drops the NaN cells). -/
def victimAges (rs : List IncidentRecord) : List (String × Nat) :=
  reindexFill ageLabels (List.insertionSort cntGE (tally ((ageGroups rs).filterMap id)))

/-- Lines 156–158: for every bracket,
`(count / victim_ages.sum()) * 100 if victim_ages.sum() > 0 else 0`,
computed exactly over `ℚ`. -/
def agePercentages (rs : List IncidentRecord) : List (String × ℚ) :=
  let va := victimAges rs
  let total := (va.map Prod.snd).sum
  va.map (fun p => (p.1, if 0 < total then ((p.2 : ℚ) / (total : ℚ)) * 100 else 0))

/-! ## The whole analysis run (the script's main flow) -/

/-- The values the script reports (lines 148–166). -/
structure AnalysisResults where
  hourCounts : List (Int × Nat)
  peakHour : Int
  nightCounts : List (String × Nat)
  peakNightArea : String
  victimAgeCounts : List (String × Nat)
  victimAgePercentages : List (String × ℚ)
  totalCrimes : Nat
  deriving DecidableEq, Repr

/-- The script's aggregation passes in order; any raised error aborts the
run. -/
def runAnalysis (rs : List IncidentRecord) : Except String AnalysisResults := do
  let t ← deriveTable rs
  let hc := hourCounts (t.map Prod.snd)
  let peak ← match idxmax hc with
    | some h => Except.ok h
    | none => Except.error emptyArgmaxMsg
  let nc := nightCrimeByArea t
  let nightPeak ← match peakNightCrimeLocation t with
    | some a => Except.ok a
    | none => Except.error emptyArgmaxMsg
  Except.ok {
    hourCounts := hc
    peakHour := peak
    nightCounts := nc
    peakNightArea := nightPeak
    victimAgeCounts := victimAges rs
    victimAgePercentages := agePercentages rs
    totalCrimes := rs.length }

/-! ## Explicit-state view of the three aggregation passes

The script keeps one shared in-memory table (`crimes`, with its derived
`HOUR OCC` column) and the three aggregation passes only read it: none of
the lines 37, 40, 73–80, 117–120 assigns to `crimes`, and the night pass
works on a `.copy()`.  To state this frame property, each pass is given as
an explicit state transformer returning its result together with the state
it leaves behind. -/

/-- The shared state the aggregations read: the table after line 34, i.e.
every record paired with its `HOUR OCC` value. -/
structure AnalysisState where
  table : List (IncidentRecord × Int)
  deriving DecidableEq, Repr

/-- Lines 37–40 as a state transformer: read the `HOUR OCC` column, count
by hour; the table is only read. -/
def hourlyPass (st : AnalysisState) : List (Int × Nat) × AnalysisState :=
  (hourCounts (st.table.map Prod.snd), st)

/-- Lines 73–77 as a state transformer: filter to the night window on a
copy and count by area; the table is only read. -/
def nightPass (st : AnalysisState) : List (String × Nat) × AnalysisState :=
  (nightCrimeByArea st.table, st)

/-- Lines 117–120 as a state transformer: bucket the victims' ages; the
table is only read. -/
def agePass (st : AnalysisState) : List (String × Nat) × AnalysisState :=
  (victimAges (st.table.map Prod.fst), st)

example : hourOf "0015" = some 0 := by decide
example : hourOf "2359" = some 23 := by decide
example : hourOf "15" = some 0 := by decide
example : hourOf "12a4" = some 12 := by decide
example : hourOf "ab15" = none := by decide
example : tally [5, 5, 13, 22, 13, 5] = [(5, 3), (13, 2), (22, 1)] := by decide
example : hourCounts [22, 5, 13, 5, 13, 5] = [(5, 3), (13, 2), (22, 1)] := by decide
example : idxmax (hourCounts [22, 5, 13, 5, 13, 5]) = some 5 := by decide
example : bracketOf (some 0) = none := by decide
example : bracketOf (some 17) = some "0-17" := by decide
example :
    victimAges [⟨"0000", "A", some 20⟩, ⟨"0000", "A", none⟩] =
      [("0-17", 0), ("18-25", 1), ("26-34", 0), ("35-44", 0),
       ("45-54", 0), ("55-64", 0), ("65+", 0)] := by decide

/-! ## Lemmas about `dedupFirst` and `tally` -/

theorem mem_dedupFirst {α : Type} [DecidableEq α] {a : α} :
    ∀ {xs : List α}, a ∈ dedupFirst xs ↔ a ∈ xs
  | [] => Iff.rfl
  | x :: xs => by
    by_cases hax : a = x
    · subst hax; simp [dedupFirst]
    · simp [dedupFirst, hax, @mem_dedupFirst _ _ a xs]

theorem nodup_dedupFirst {α : Type} [DecidableEq α] :
    ∀ xs : List α, (dedupFirst xs).Nodup
  | [] => List.nodup_nil
  | x :: xs => by
    refine List.Nodup.cons ?_ ((nodup_dedupFirst xs).filter _)
    intro hx
    rcases List.mem_filter.mp hx with ⟨-, hne⟩
    simp at hne

theorem tally_fst {α : Type} [DecidableEq α] (xs : List α) :
    (tally xs).map Prod.fst = dedupFirst xs := by
  rw [tally, List.map_map]
  exact List.map_id' _

theorem tally_keys_nodup {α : Type} [DecidableEq α] (xs : List α) :
    ((tally xs).map Prod.fst).Nodup := by
  rw [tally_fst]; exact nodup_dedupFirst xs

theorem mem_tally {α : Type} [DecidableEq α] {a : α} {c : Nat} {xs : List α} :
    (a, c) ∈ tally xs ↔ a ∈ xs ∧ c = xs.count a := by
  constructor
  · intro h
    rcases List.mem_map.mp h with ⟨b, hb, hba⟩
    cases hba
    exact ⟨mem_dedupFirst.mp hb, rfl⟩
  · rintro ⟨ha, rfl⟩
    exact List.mem_map.mpr ⟨a, mem_dedupFirst.mpr ha, rfl⟩

theorem dedupFirst_perm_dedup {α : Type} [DecidableEq α] (xs : List α) :
    (dedupFirst xs).Perm xs.dedup := by
  rw [List.perm_ext_iff_of_nodup (nodup_dedupFirst xs) xs.nodup_dedup]
  intro a
  rw [mem_dedupFirst, List.mem_dedup]

theorem tally_sum {α : Type} [DecidableEq α] (xs : List α) :
    ((tally xs).map Prod.snd).sum = xs.length := by
  have hperm : ((dedupFirst xs).map (fun a => xs.count a)).Perm (xs.dedup.map fun a => xs.count a) :=
    (dedupFirst_perm_dedup xs).map _
  calc ((tally xs).map Prod.snd).sum
      = ((dedupFirst xs).map (fun a => xs.count a)).sum := by
        rw [tally, List.map_map]; rfl
    _ = (xs.dedup.map fun a => xs.count a).sum := hperm.sum_eq
    _ = xs.length := List.sum_map_count_dedup_eq_length xs

/-! ## Lemmas about `maxCount`, `firstMaxPair`, `idxmax` -/

theorem snd_le_maxCount {α : Type} {p : α × Nat} :
    ∀ {l : List (α × Nat)}, p ∈ l → p.2 ≤ maxCount l
  | q :: l, h => by
    rcases List.mem_cons.mp h with h | h
    · subst h; exact Nat.le_max_left _ _
    · exact le_trans (snd_le_maxCount h) (Nat.le_max_right _ _)

theorem maxCount_le {α : Type} {c : Nat} :
    ∀ {l : List (α × Nat)}, (∀ q ∈ l, q.2 ≤ c) → maxCount l ≤ c
  | [], _ => Nat.zero_le c
  | q :: l, h => by
    apply max_le (h q (List.mem_cons_self q l))
    exact maxCount_le fun p hp => h p (List.mem_cons_of_mem q hp)

theorem firstMaxPair_split {α : Type} {p : α × Nat} :
    ∀ {l : List (α × Nat)}, firstMaxPair l = some p →
      ∃ l₁ l₂, l = l₁ ++ p :: l₂ ∧ (∀ q ∈ l₁, q.2 < p.2) ∧ ∀ q ∈ l₂, q.2 ≤ p.2
  | [], h => by simp [firstMaxPair] at h
  | r :: l, h => by
    rw [firstMaxPair] at h
    by_cases hc : maxCount l ≤ r.2
    · rw [if_pos hc] at h
      cases h
      exact ⟨[], l, rfl, by simp, fun q hq => le_trans (snd_le_maxCount hq) hc⟩
    · rw [if_neg hc] at h
      rcases firstMaxPair_split h with ⟨l₁, l₂, rfl, h₁, h₂⟩
      refine ⟨r :: l₁, l₂, rfl, ?_, h₂⟩
      intro q hq
      rcases List.mem_cons.mp hq with hq | hq
      · subst hq
        have hmax : maxCount (l₁ ++ p :: l₂) = p.2 := by
          apply le_antisymm
          · apply maxCount_le
            intro s hs
            rcases List.mem_append.mp hs with hs | hs
            · exact le_of_lt (h₁ s hs)
            · rcases List.mem_cons.mp hs with hs | hs
              · subst hs; exact le_refl _
              · exact h₂ s hs
          · exact snd_le_maxCount (List.mem_append_right _ (List.mem_cons_self _ _))
        have := lt_of_not_le hc
        omega
      · exact h₁ q hq

theorem firstMaxPair_mem {α : Type} {p : α × Nat} {l : List (α × Nat)}
    (h : firstMaxPair l = some p) : p ∈ l := by
  rcases firstMaxPair_split h with ⟨l₁, l₂, rfl, -, -⟩
  exact List.mem_append_right _ (List.mem_cons_self _ _)

theorem firstMaxPair_ge {α : Type} {p : α × Nat} {l : List (α × Nat)}
    (h : firstMaxPair l = some p) : ∀ q ∈ l, q.2 ≤ p.2 := by
  rcases firstMaxPair_split h with ⟨l₁, l₂, rfl, h₁, h₂⟩
  intro q hq
  rcases List.mem_append.mp hq with hq | hq
  · exact le_of_lt (h₁ q hq)
  · rcases List.mem_cons.mp hq with hq | hq
    · subst hq; exact le_refl _
    · exact h₂ q hq

theorem firstMaxPair_snd {α : Type} {p : α × Nat} {l : List (α × Nat)}
    (h : firstMaxPair l = some p) : p.2 = maxCount l :=
  le_antisymm (snd_le_maxCount (firstMaxPair_mem h)) (maxCount_le (firstMaxPair_ge h))

theorem firstMaxPair_isSome {α : Type} :
    ∀ {l : List (α × Nat)}, l ≠ [] → ∃ p, firstMaxPair l = some p
  | [], h => absurd rfl h
  | r :: l, _ => by
    rw [firstMaxPair]
    by_cases hc : maxCount l ≤ r.2
    · exact ⟨r, if_pos hc⟩
    · have hl : l ≠ [] := by rintro rfl; exact hc (Nat.zero_le _)
      rcases firstMaxPair_isSome hl with ⟨p, hp⟩
      exact ⟨p, by rw [if_neg hc, hp]⟩

theorem idxmax_isSome {α : Type} {l : List (α × Nat)} (h : l ≠ []) :
    ∃ a, idxmax l = some a := by
  rcases firstMaxPair_isSome h with ⟨p, hp⟩
  exact ⟨p.1, by rw [idxmax, hp]; rfl⟩

/-! ## The stable descending sort and `idxmax` -/

theorem firstMaxPair_of_sorted {s : List (String × Nat)} (hs : List.Sorted cntGE s) :
    firstMaxPair s = s.head? := by
  cases s with
  | nil => rfl
  | cons p s' =>
    rw [firstMaxPair, if_pos]
    · rfl
    · exact maxCount_le fun q hq => List.rel_of_sorted_cons hs q hq

theorem head?_insertionSort_cntGE :
    ∀ l : List (String × Nat), (List.insertionSort cntGE l).head? = firstMaxPair l
  | [] => rfl
  | x :: xs => by
    rw [List.insertionSort]
    cases hx : firstMaxPair xs with
    | none =>
      have hxs : xs = [] := by
        cases xs with
        | nil => rfl
        | cons y ys =>
          rcases @firstMaxPair_isSome _ (y :: ys) (by simp) with ⟨p, hp⟩
          rw [hp] at hx; cases hx
      subst hxs
      simp [List.insertionSort, List.orderedInsert, firstMaxPair, maxCount, Nat.zero_le]
    | some b =>
      have ih := head?_insertionSort_cntGE xs
      rw [hx] at ih
      cases hsort : List.insertionSort cntGE xs with
      | nil => rw [hsort] at ih; cases ih
      | cons q s' =>
        rw [hsort] at ih
        have hqb : q = b := by simpa using ih
        subst hqb
        have hbmax : q.2 = maxCount xs := firstMaxPair_snd hx
        rw [List.orderedInsert]
        by_cases hc : cntGE x q
        · have hcond : maxCount xs ≤ x.2 := by rw [← hbmax]; exact hc
          rw [if_pos hc, firstMaxPair, if_pos hcond]
          rfl
        · have hcond : ¬ maxCount xs ≤ x.2 := by rw [← hbmax]; exact hc
          rw [if_neg hc, firstMaxPair, if_neg hcond, hx]
          rfl

/-- Stability of the descending sort: `idxmax` applied after the stable
descending sort returns the same key as `idxmax` applied to the counts in
first-appearance order — the arg-max with ties broken towards the
first-encountered key. -/
theorem idxmax_insertionSort_cntGE (l : List (String × Nat)) :
    idxmax (List.insertionSort cntGE l) = idxmax l := by
  rw [idxmax, idxmax, firstMaxPair_of_sorted (List.sorted_insertionSort cntGE l),
    head?_insertionSort_cntGE]

/-- On a list sorted by ascending key, the first pair attaining the maximal
count is the arg-max whose key is least among all arg-maxes. -/
theorem firstMaxPair_sorted_key {l : List (Int × Nat)} {p : Int × Nat}
    (hs : List.Sorted keyLE l) (h : firstMaxPair l = some p) :
    ∀ q ∈ l, q.2 ≤ p.2 ∧ (q.2 = p.2 → p.1 ≤ q.1) := by
  rcases firstMaxPair_split h with ⟨l₁, l₂, rfl, h₁, h₂⟩
  have hsp : (p :: l₂).Pairwise keyLE := (List.pairwise_append.mp hs).2.1
  intro q hq
  rcases List.mem_append.mp hq with hq | hq
  · exact ⟨le_of_lt (h₁ q hq), fun he => absurd he (ne_of_lt (h₁ q hq))⟩
  · rcases List.mem_cons.mp hq with hq | hq
    · subst hq; exact ⟨le_refl _, fun _ => le_refl _⟩
    · exact ⟨h₂ q hq, fun _ => List.rel_of_pairwise_cons hsp hq⟩

/-! ## Lemmas about the `HOUR OCC` extraction -/

theorem extractHours_length :
    ∀ {rs : List IncidentRecord} {hs : List Int},
      extractHours rs = .ok hs → hs.length = rs.length
  | [], hs, h => by
    simp only [extractHours, Except.ok.injEq] at h
    subst h; rfl
  | r :: rs, hs, h => by
    simp only [extractHours] at h
    cases hh : hourOf r.occurredTime with
    | none => rw [hh] at h; cases h
    | some h0 =>
      rw [hh] at h
      cases he : extractHours rs with
      | error e => rw [he] at h; cases h
      | ok hs' =>
        rw [he] at h
        cases h
        simp [List.length_cons, extractHours_length he]

theorem extractHours_error_iff :
    ∀ {rs : List IncidentRecord},
      (∃ e, extractHours rs = .error e) ↔ ∃ r ∈ rs, hourOf r.occurredTime = none
  | [] => by simp [extractHours]
  | r :: rs => by
    simp only [extractHours]
    cases hh : hourOf r.occurredTime with
    | none =>
      simp only [List.mem_cons]
      exact ⟨fun _ => ⟨r, Or.inl rfl, hh⟩, fun _ => ⟨intParseErr r.occurredTime, rfl⟩⟩
    | some h0 =>
      cases he : extractHours rs with
      | error e =>
        have hrec : ∃ r ∈ rs, hourOf r.occurredTime = none :=
          extractHours_error_iff.mp ⟨e, he⟩
        simp only [List.mem_cons]
        exact ⟨fun _ => by
            rcases hrec with ⟨r', hr', hr0⟩
            exact ⟨r', Or.inr hr', hr0⟩,
          fun _ => ⟨e, rfl⟩⟩
      | ok hs' =>
        constructor
        · rintro ⟨e, he'⟩; cases he'
        · rintro ⟨r', hr', hr0⟩
          rcases List.mem_cons.mp hr' with hr' | hr'
          · subst hr'; rw [hr0] at hh; cases hh
          · rcases extractHours_error_iff.mpr ⟨r', hr', hr0⟩ with ⟨e, he'⟩
            rw [he'] at he; cases he

theorem extractHours_eq_map {f : IncidentRecord → Int} :
    ∀ {rs : List IncidentRecord},
      (∀ r ∈ rs, hourOf r.occurredTime = some (f r)) →
        extractHours rs = .ok (rs.map f)
  | [], _ => rfl
  | r :: rs, h => by
    have hr : hourOf r.occurredTime = some (f r) := h r (List.mem_cons_self r rs)
    have hrec : extractHours rs = .ok (rs.map f) :=
      extractHours_eq_map fun r' hr' => h r' (List.mem_cons_of_mem r hr')
    simp only [extractHours, hr, hrec, List.map_cons]

/-! ## Lemmas about `List.lookup` on count lists -/

theorem lookup_eq_none_of_not_mem_keys :
    ∀ {l : List (String × Nat)} {a : String},
      a ∉ l.map Prod.fst → l.lookup a = none
  | [], a, _ => rfl
  | (b, c) :: l, a, h => by
    simp only [List.map_cons, List.mem_cons] at h
    push_neg at h
    have hb : (a == b) = false := beq_eq_false_iff_ne.mpr h.1
    rw [List.lookup_cons, hb]
    exact lookup_eq_none_of_not_mem_keys h.2

theorem lookup_eq_some_of_mem :
    ∀ {l : List (String × Nat)} {a : String} {c : Nat},
      (l.map Prod.fst).Nodup → (a, c) ∈ l → l.lookup a = some c
  | (b, d) :: l, a, c, hnd, hmem => by
    rw [List.lookup_cons]
    rcases List.mem_cons.mp hmem with h | h
    · cases h
      rw [beq_self_eq_true]
    · have hne : a ≠ b := by
        rintro rfl
        have : a ∈ l.map Prod.fst := List.mem_map.mpr ⟨(a, c), h, rfl⟩
        exact (List.nodup_cons.mp hnd).1 this
      rw [beq_eq_false_iff_ne.mpr hne]
      exact lookup_eq_some_of_mem (List.nodup_cons.mp hnd).2 h

/-! ## Lemmas about the age bracketing -/

theorem count_filterMap_id {α : Type} [DecidableEq α] (a : α) :
    ∀ os : List (Option α), (os.filterMap id).count a = os.count (some a)
  | [] => rfl
  | none :: os => by
    simp [List.filterMap_cons, count_filterMap_id a os, List.count_cons]
  | some b :: os => by
    by_cases hb : b = a
    · subst hb
      simp [List.filterMap_cons, count_filterMap_id b os, List.count_cons]
    · simp [List.filterMap_cons, count_filterMap_id a os, List.count_cons, hb,
        Ne.symm hb]

/-- The observable content of line 120: the reindexed `value_counts` maps
every bracket label, in the fixed label order, to the number of records
whose age falls in that bracket. -/
theorem victimAges_eq (rs : List IncidentRecord) :
    victimAges rs = ageLabels.map (fun l => (l, (ageGroups rs).count (some l))) := by
  rw [victimAges, reindexFill]
  apply List.map_congr_left
  intro l _
  rw [← count_filterMap_id l (ageGroups rs)]
  set gs := (ageGroups rs).filterMap id with hgs
  by_cases hl : l ∈ gs
  · have hmem : (l, gs.count l) ∈ tally gs := mem_tally.mpr ⟨hl, rfl⟩
    have hmem' : (l, gs.count l) ∈ List.insertionSort cntGE (tally gs) :=
      (List.perm_insertionSort cntGE (tally gs)).mem_iff.mpr hmem
    have hnd : ((List.insertionSort cntGE (tally gs)).map Prod.fst).Nodup := by
      have hperm := (List.perm_insertionSort cntGE (tally gs)).map Prod.fst
      exact hperm.nodup_iff.mpr (tally_keys_nodup gs)
    rw [lookup_eq_some_of_mem hnd hmem']
    rfl
  · have hkeys : l ∉ (List.insertionSort cntGE (tally gs)).map Prod.fst := by
      intro hmem
      rcases List.mem_map.mp hmem with ⟨p, hp, hpl⟩
      have hp' : p ∈ tally gs := (List.perm_insertionSort cntGE (tally gs)).mem_iff.mp hp
      have : p.1 ∈ gs := by
        rcases p with ⟨p1, p2⟩
        exact (mem_tally.mp hp').1
      rw [hpl] at this
      exact hl this
    rw [lookup_eq_none_of_not_mem_keys hkeys]
    simp [List.count_eq_zero.mpr hl]

theorem bracketOf_cases (x : Option Int) :
    bracketOf x = none ∨ bracketOf x = some "0-17" ∨ bracketOf x = some "18-25" ∨
    bracketOf x = some "26-34" ∨ bracketOf x = some "35-44" ∨ bracketOf x = some "45-54" ∨
    bracketOf x = some "55-64" ∨ bracketOf x = some "65+" := by
  cases x with
  | none => exact Or.inl rfl
  | some a =>
    rw [bracketOf]
    split_ifs <;> simp

/-- The bracket cell is NaN exactly for a missing or non-positive age:
`pd.cut` with bins starting at 0 and `right=True` leaves 0 itself (and
everything below) outside every interval. -/
theorem bracketOf_eq_none_iff (x : Option Int) :
    bracketOf x = none ↔ x = none ∨ ∃ a, x = some a ∧ a ≤ 0 := by
  cases x with
  | none => simp [bracketOf]
  | some a =>
    rw [bracketOf]
    split_ifs with h1 h2 h3 h4 h5 h6 h7 <;> simp <;> omega

theorem count_brackets_sum :
    ∀ {gs : List (Option String)},
      (∀ g ∈ gs, g = none ∨ g = some "0-17" ∨ g = some "18-25" ∨ g = some "26-34" ∨
        g = some "35-44" ∨ g = some "45-54" ∨ g = some "55-64" ∨ g = some "65+") →
      gs.count (some "0-17") + gs.count (some "18-25") + gs.count (some "26-34") +
        gs.count (some "35-44") + gs.count (some "45-54") + gs.count (some "55-64") +
        gs.count (some "65+") + gs.countP (fun g => g.isNone) = gs.length
  | [], _ => rfl
  | g :: gs, h => by
    have hrec := count_brackets_sum fun g' hg' => h g' (List.mem_cons_of_mem g hg')
    have hg := h g (List.mem_cons_self g gs)
    rcases hg with hg | hg | hg | hg | hg | hg | hg | hg <;>
      subst hg <;>
      simp only [List.count_cons, List.countP_cons, List.length_cons] <;>
      simp <;>
      omega

/-- Pointwise: the bracket cell is NaN exactly when the age is missing or
non-positive. -/
theorem bracketOf_isNone (x : Option Int) :
    (bracketOf x).isNone =
      (match x with | none => true | some a => decide (a ≤ 0)) := by
  cases x with
  | none => rfl
  | some a =>
    by_cases ha : a ≤ 0
    · rw [(bracketOf_eq_none_iff (some a)).mpr (Or.inr ⟨a, rfl, ha⟩)]
      simp [ha]
    · have hne : bracketOf (some a) ≠ none := by
        intro hn
        rcases (bracketOf_eq_none_iff (some a)).mp hn with h | ⟨b, hb, hb0⟩
        · cases h
        · cases hb; exact ha hb0
      rcases hb : bracketOf (some a) with - | l
      · exact absurd hb hne
      · simp [ha]

/-- Every record lands in exactly one bracket or is excluded: the bracket
counts sum to the number of records minus those with a missing or
non-positive age. -/
theorem victimAges_sum (rs : List IncidentRecord) :
    ((victimAges rs).map Prod.snd).sum
      + rs.countP (fun r => match r.victAge with | none => true | some a => decide (a ≤ 0))
      = rs.length := by
  have hcases : ∀ g ∈ ageGroups rs, g = none ∨ g = some "0-17" ∨ g = some "18-25" ∨
      g = some "26-34" ∨ g = some "35-44" ∨ g = some "45-54" ∨ g = some "55-64" ∨
      g = some "65+" := by
    intro g hg
    rcases List.mem_map.mp hg with ⟨r, -, hr⟩
    rw [← hr]
    exact bracketOf_cases r.victAge
  have hsum := count_brackets_sum hcases
  have hmap : ((victimAges rs).map Prod.snd).sum =
      (ageGroups rs).count (some "0-17") + (ageGroups rs).count (some "18-25") +
      (ageGroups rs).count (some "26-34") + (ageGroups rs).count (some "35-44") +
      (ageGroups rs).count (some "45-54") + (ageGroups rs).count (some "55-64") +
      (ageGroups rs).count (some "65+") := by
    rw [victimAges_eq, List.map_map]
    simp [ageLabels, Function.comp]
    ring
  have hcount : rs.countP
        (fun r => match r.victAge with | none => true | some a => decide (a ≤ 0)) =
      (ageGroups rs).countP (fun g => g.isNone) := by
    rw [ageGroups, List.countP_map]
    apply List.countP_congr
    intro r _
    simp only [Function.comp_apply]
    rw [bracketOf_isNone r.victAge]
  have hlen : (ageGroups rs).length = rs.length := List.length_map rs _
  omega

/-! ## Parsing well-formed military times -/

theorem char_ne_of_isDigit {c : Char} (h : c.isDigit) : c ≠ ' ' ∧ c ≠ '+' ∧ c ≠ '-' := by
  refine ⟨?_, ?_, ?_⟩ <;> rintro rfl <;> exact absurd h (by decide)

theorem trimSpaces_pair {c1 c2 : Char} (h1 : c1 ≠ ' ') (h2 : c2 ≠ ' ') :
    trimSpaces [c1, c2] = [c1, c2] := by
  simp [trimSpaces, List.dropWhile_cons, h1, h2]

theorem pyInt_digits {c1 c2 : Char} (h1 : c1.isDigit) (h2 : c2.isDigit) :
    pyInt [c1, c2] = some (digitsVal [c1, c2]) := by
  obtain ⟨hs1, hp1, hm1⟩ := char_ne_of_isDigit h1
  obtain ⟨hs2, -, -⟩ := char_ne_of_isDigit h2
  rw [pyInt, trimSpaces_pair hs1 hs2]
  simp [hp1, hm1, h1, h2]

/-- On a well-formed 4-digit time string, line 34 derives the hour encoded
by the first two digits. -/
theorem hourOf_military {s : String} (hlen : s.data.length = 4)
    (hdig : ∀ c ∈ s.data, c.isDigit) :
    hourOf s = some (digitsVal (s.data.take 2)) := by
  have hz : pyZfill 4 s.data = s.data := by
    simp only [pyZfill]
    rw [if_pos (by omega)]
  rw [hourOf, hz]
  rcases hd : s.data with - | ⟨c1, - | ⟨c2, t⟩⟩
  · rw [hd] at hlen; cases hlen
  · rw [hd] at hlen; simp at hlen
  · have h1 : c1.isDigit := hdig c1 (by rw [hd]; exact List.mem_cons_self _ _)
    have h2 : c2.isDigit := hdig c2 (by
      rw [hd]; exact List.mem_cons_of_mem _ (List.mem_cons_self _ _))
    have htake : (c1 :: c2 :: t).take 2 = [c1, c2] := rfl
    rw [htake]
    exact pyInt_digits h1 h2

/-! ## The total of the valid bracketed counts -/

theorem length_filterMap_id {α : Type} :
    ∀ os : List (Option α), (os.filterMap id).length = os.countP (fun g => !g.isNone)
  | [] => rfl
  | none :: os => by
    simp [List.filterMap_cons, List.countP_cons, length_filterMap_id os]
  | some b :: os => by
    simp [List.filterMap_cons, List.countP_cons, length_filterMap_id os]

/-- The fraction's denominator on line 157, `victim_ages.sum()`, equals the
number of records with a validly bracketed age. -/
theorem victimAges_total (rs : List IncidentRecord) :
    ((victimAges rs).map Prod.snd).sum = ((ageGroups rs).filterMap id).length := by
  have h1 := victimAges_sum rs
  have hcount : rs.countP
        (fun r => match r.victAge with | none => true | some a => decide (a ≤ 0)) =
      (ageGroups rs).countP (fun g => g.isNone) := by
    rw [ageGroups, List.countP_map]
    apply List.countP_congr
    intro r _
    simp only [Function.comp_apply]
    rw [bracketOf_isNone r.victAge]
  have hsplit :=
    List.length_eq_countP_add_countP (fun g : Option String => g.isNone) (ageGroups rs)
  have hneg : (ageGroups rs).countP (fun a => decide ¬((fun g : Option String => g.isNone) a)) =
      (ageGroups rs).countP (fun g => !g.isNone) := by
    apply List.countP_congr
    intro g _
    cases g <;> simp
  rw [hneg] at hsplit
  have hlen : (ageGroups rs).length = rs.length := List.length_map rs _
  rw [length_filterMap_id]
  omega

/-! ## Claim C4 — age bracket boundaries -/

/-- C4, counterexample: the claim asserts that a victim age of 0 falls in
bracket "0-17", but `pd.cut` with bins starting at 0 and `right=True`
leaves 0 outside every interval, so age 0 is bracketed as NaN. -/
theorem age_zero_excluded_counterexample :
    bracketOf (some 0) = none ∧ bracketOf (some 0) ≠ some "0-17" := by
  refine ⟨rfl, ?_⟩
  decide

/-- C4 (amended): age brackets are right-inclusive with the first bracket
left-exclusive at 0 — age 0 falls in no bracket, 17 in "0-17", 18 in
"18-25", 64 in "55-64", 65 in "65+". -/
theorem age_bracket_boundaries_spec :
    bracketOf (some 0) = none ∧ bracketOf (some 17) = some "0-17" ∧
    bracketOf (some 18) = some "18-25" ∧ bracketOf (some 64) = some "55-64" ∧
    bracketOf (some 65) = some "65+" := by
  decide

/-! ## Claim C5 — exclusion of missing/invalid ages and the shortfall -/

/-- C5, counterexample: for the single record with victim age 0 the bracket
counts sum to 0, yet the claim's shortfall (records with a missing or
negative age) is 0 while the table has 1 record — the claimed equation
`sum + missing/negative = total` fails, because age 0 is also excluded. -/
theorem age_shortfall_counterexample :
    ((victimAges [⟨"1200", "Central", some 0⟩]).map Prod.snd).sum
        + [(⟨"1200", "Central", some 0⟩ : IncidentRecord)].countP
            (fun r => match r.victAge with | none => true | some a => decide (a < 0))
      ≠ [(⟨"1200", "Central", some 0⟩ : IncidentRecord)].length := by
  decide

/-- C5 (amended): records with a missing or non-positive age are excluded
from the age aggregation, so the bracket counts sum to at most the number
of records and the shortfall is exactly the number of records whose age is
missing or non-positive (0 itself is excluded by the binning). -/
theorem age_aggregation_shortfall_spec (rs : List IncidentRecord) :
    ((victimAges rs).map Prod.snd).sum
        + rs.countP (fun r => match r.victAge with | none => true | some a => decide (a ≤ 0))
      = rs.length
    ∧ ((victimAges rs).map Prod.snd).sum ≤ rs.length := by
  have h := victimAges_sum rs
  exact ⟨h, by omega⟩

/-! ## Claim C6 — fixed bracket labels and percentages -/

/-- C6: the age aggregation always reports all 7 bracket labels in the
fixed order (0 for empty brackets), each label carrying the count of
records bracketed under it, and each percentage is count divided by the
total of the validly bracketed counts times 100, with 0 when that total
is 0. -/
theorem age_output_labels_percentages_spec (rs : List IncidentRecord) :
    (victimAges rs).map Prod.fst = ageLabels
    ∧ (∀ l ∈ ageLabels, (l, (ageGroups rs).count (some l)) ∈ victimAges rs)
    ∧ agePercentages rs = ageLabels.map (fun l => (l,
        if 0 < ((ageGroups rs).filterMap id).length
        then ((ageGroups rs).count (some l) : ℚ)
              / (((ageGroups rs).filterMap id).length : ℚ) * 100
        else 0)) := by
  refine ⟨?_, ?_, ?_⟩
  · rw [victimAges_eq, List.map_map]
    exact List.map_id' _
  · intro l hl
    rw [victimAges_eq]
    exact List.mem_map.mpr ⟨l, hl, rfl⟩
  · simp only [agePercentages]
    rw [victimAges_total, victimAges_eq, List.map_map]
    apply List.map_congr_left
    intro l _
    rfl

/-! ## Claim C1 — the hourly counts mapping -/

/-- C1, counterexample: for a single record at hour 5, `value_counts`
returns a single row — hours with zero occurrences are not filled in with
count 0, so the mapping does not contain every hour 0..23. -/
theorem hour_counts_no_zero_fill_counterexample :
    hourCountsOf [⟨"0500", "Central", none⟩] = .ok [((5 : Int), 1)]
      ∧ ((0 : Int), (0 : Nat)) ∉ ([((5 : Int), 1)] : List (Int × Nat)) := by
  exact ⟨rfl, by decide⟩

/-- C1 (amended): the hourly mapping contains exactly the hours that occur
in the input — each exactly once, in strictly ascending hour order, with
its number of occurrences — and the counts sum to the number of records;
absent hours are not reported with a zero count. -/
theorem hour_counts_spec (rs : List IncidentRecord) (hs : List Int)
    (hex : extractHours rs = .ok hs) :
    List.Pairwise (fun p q : Int × Nat => p.1 < q.1) (hourCounts hs)
    ∧ (∀ p ∈ hourCounts hs, p.1 ∈ hs ∧ p.2 = hs.count p.1)
    ∧ (∀ a ∈ hs, (a, hs.count a) ∈ hourCounts hs)
    ∧ ((hourCounts hs).map Prod.snd).sum = rs.length := by
  have hperm := List.perm_insertionSort keyLE (tally hs)
  refine ⟨?_, ?_, ?_, ?_⟩
  · have hsorted : List.Pairwise keyLE (hourCounts hs) :=
      List.sorted_insertionSort keyLE (tally hs)
    have hnd : ((hourCounts hs).map Prod.fst).Nodup :=
      ((hperm.map Prod.fst).nodup_iff).mpr (tally_keys_nodup hs)
    have hne : List.Pairwise (fun p q : Int × Nat => p.1 ≠ q.1) (hourCounts hs) :=
      List.pairwise_map.mp hnd
    exact (hsorted.and hne).imp fun h => lt_of_le_of_ne h.1 h.2
  · rintro ⟨a, c⟩ hp
    exact mem_tally.mp (hperm.mem_iff.mp hp)
  · intro a ha
    exact hperm.mem_iff.mpr (mem_tally.mpr ⟨ha, rfl⟩)
  · calc ((hourCounts hs).map Prod.snd).sum
        = ((tally hs).map Prod.snd).sum := (hperm.map Prod.snd).sum_eq
      _ = hs.length := tally_sum hs
      _ = rs.length := extractHours_length hex

/-- C1, witness: the amended statement at a concrete two-record table. -/
theorem hour_counts_witness :
    ((hourCounts [(5 : Int), 13]).map Prod.snd).sum = 2 :=
  (hour_counts_spec [⟨"0500", "Central", none⟩, ⟨"1300", "Central", none⟩]
    [(5 : Int), 13] rfl).2.2.2

/-! ## Claim C2 — the peak crime hour -/

/-- C2: whenever the script computes a peak crime hour, that hour occurs in
the data, its count is maximal, and among the hours attaining the maximal
count it is the lowest (idxmax after sort_index takes the first, i.e.
lowest, index attaining the maximum). -/
theorem peak_crime_hour_spec (rs : List IncidentRecord) (hs : List Int) (h : Int)
    (hex : extractHours rs = .ok hs) (hpk : peakCrimeHour rs = .ok h) :
    h ∈ hs
    ∧ (∀ x ∈ hs, hs.count x ≤ hs.count h)
    ∧ (∀ x ∈ hs, hs.count x = hs.count h → h ≤ x) := by
  have hperm := List.perm_insertionSort keyLE (tally hs)
  rw [peakCrimeHour, hex] at hpk
  have hpk2 : (match idxmax (hourCounts hs) with
      | some h0 => (Except.ok h0 : Except String Int)
      | none => Except.error emptyArgmaxMsg) = .ok h := hpk
  rcases hfm : firstMaxPair (hourCounts hs) with - | p
  · rw [idxmax, hfm] at hpk2
    have hpk3 : (Except.error emptyArgmaxMsg : Except String Int) = .ok h := hpk2
    cases hpk3
  · rw [idxmax, hfm] at hpk2
    have hpk3 : (Except.ok p.1 : Except String Int) = .ok h := hpk2
    cases hpk3
    have hpmem : (p.1, p.2) ∈ tally hs := by
      have := firstMaxPair_mem hfm
      exact hperm.mem_iff.mp this
    have hp1 : p.1 ∈ hs ∧ p.2 = hs.count p.1 := mem_tally.mp hpmem
    have hkey := firstMaxPair_sorted_key (List.sorted_insertionSort keyLE (tally hs)) hfm
    refine ⟨hp1.1, ?_, ?_⟩
    · intro x hx
      have hxmem : (x, hs.count x) ∈ hourCounts hs :=
        hperm.mem_iff.mpr (mem_tally.mpr ⟨hx, rfl⟩)
      have := (hkey (x, hs.count x) hxmem).1
      omega
    · intro x hx hcnt
      have hxmem : (x, hs.count x) ∈ hourCounts hs :=
        hperm.mem_iff.mpr (mem_tally.mpr ⟨hx, rfl⟩)
      refine (hkey (x, hs.count x) hxmem).2 ?_
      omega

/-- C2, witness: the spec's scenario — hours [5,5,5,13,13,22] give peak
hour 5 with count 3, and 5 is the lowest arg-max. -/
theorem peak_crime_hour_witness :
    (5 : Int) ∈ [(5 : Int), 5, 5, 13, 13, 22]
    ∧ List.count (5 : Int) [(5 : Int), 5, 5, 13, 13, 22] = 3
    ∧ ((5 : Int), (3 : Nat)) ∈ hourCounts [(5 : Int), 5, 5, 13, 13, 22] := by
  refine ⟨?_, by decide, by decide⟩
  exact (peak_crime_hour_spec
    [⟨"0500", "A", none⟩, ⟨"0500", "A", none⟩, ⟨"0500", "A", none⟩,
     ⟨"1300", "A", none⟩, ⟨"1300", "A", none⟩, ⟨"2200", "A", none⟩]
    [(5 : Int), 5, 5, 13, 13, 22] 5 rfl rfl).1

/-! ## Claim C3 — night crimes by area -/

/-- C3: the night aggregation counts exactly the rows whose derived hour
lies in {22,23,0,1,2,3}, grouped by area (each area with the number of its
night rows), returns them in descending-count order, and the peak night
area is the arg-max with ties broken towards the first-encountered area of
the counting pass (`idxmax` after the stable descending sort equals
`idxmax` on the first-appearance tally). -/
theorem night_crime_by_area_spec (t : List (IncidentRecord × Int)) :
    ((nightCrimeByArea t).map Prod.snd).sum = (nightAreas t).length
    ∧ List.Sorted cntGE (nightCrimeByArea t)
    ∧ peakNightCrimeLocation t = idxmax (tally (nightAreas t))
    ∧ (∀ p ∈ tally (nightAreas t), p.1 ∈ nightAreas t ∧ p.2 = (nightAreas t).count p.1)
    ∧ (∀ a, peakNightCrimeLocation t = some a →
        ∃ c, (a, c) ∈ tally (nightAreas t) ∧ ∀ q ∈ tally (nightAreas t), q.2 ≤ c) := by
  have hperm := List.perm_insertionSort cntGE (tally (nightAreas t))
  have hidx : peakNightCrimeLocation t = idxmax (tally (nightAreas t)) := by
    rw [peakNightCrimeLocation, nightCrimeByArea, idxmax_insertionSort_cntGE]
  refine ⟨?_, List.sorted_insertionSort cntGE (tally (nightAreas t)), hidx, ?_, ?_⟩
  · calc ((nightCrimeByArea t).map Prod.snd).sum
        = ((tally (nightAreas t)).map Prod.snd).sum := (hperm.map Prod.snd).sum_eq
      _ = (nightAreas t).length := tally_sum (nightAreas t)
  · rintro ⟨a, c⟩ hp
    exact mem_tally.mp hp
  · intro a ha
    rw [hidx] at ha
    rcases hfm : firstMaxPair (tally (nightAreas t)) with - | p
    · rw [idxmax, hfm] at ha; cases ha
    · rw [idxmax, hfm] at ha
      have ha2 : some p.1 = some a := ha
      cases ha2
      exact ⟨p.2, firstMaxPair_mem hfm, firstMaxPair_ge hfm⟩

/-- C3, witness: the spec's scenario — night rows with areas
["A","A","B"] give peak night area "A" with count 2, reported in
descending-count order. -/
theorem night_crime_by_area_witness :
    ((nightCrimeByArea
        [(⟨"2200", "A", none⟩, (22 : Int)), (⟨"2300", "A", none⟩, 23),
         (⟨"0100", "B", none⟩, 1)]).map Prod.snd).sum = 3
    ∧ nightCrimeByArea
        [(⟨"2200", "A", none⟩, (22 : Int)), (⟨"2300", "A", none⟩, 23),
         (⟨"0100", "B", none⟩, 1)] = [("A", 2), ("B", 1)]
    ∧ peakNightCrimeLocation
        [(⟨"2200", "A", none⟩, (22 : Int)), (⟨"2300", "A", none⟩, 23),
         (⟨"0100", "B", none⟩, 1)] = some "A" := by
  refine ⟨?_, by decide, by decide⟩
  exact (night_crime_by_area_spec
    [(⟨"2200", "A", none⟩, (22 : Int)), (⟨"2300", "A", none⟩, 23),
     (⟨"0100", "B", none⟩, 1)]).1.trans (by decide)

/-! ## Claim C7 — failure on malformed time strings -/

/-- C7, counterexample: "12a4" is malformed (it contains a non-digit), yet
the hourly computation does not fail — the slice keeps only the first two
characters, so the row is silently counted under hour 12. -/
theorem malformed_time_accepted_counterexample :
    hourOf "12a4" = some 12
    ∧ hourCountsOf [⟨"12a4", "Central", none⟩] = .ok [((12 : Int), 1)]
    ∧ ("12a4".data.all Char.isDigit) = false := by
  exact ⟨rfl, rfl, by decide⟩

/-- C7 (amended): the hourly computation fails (with the `ValueError` of
`astype(int)`) exactly when some row's zero-padded time string has a first
two characters that do not parse as a Python integer; malformed content in
the remaining characters, or extra length, is silently accepted. -/
theorem hourly_pass_failure_spec (rs : List IncidentRecord) :
    (∃ e, hourCountsOf rs = .error e) ↔ ∃ r ∈ rs, hourOf r.occurredTime = none := by
  rw [← extractHours_error_iff]
  rw [hourCountsOf]
  cases he : extractHours rs with
  | error e => simp [Except.map]
  | ok hs => simp [Except.map]

/-- C7, witness: a row whose first two characters are non-digits makes the
hourly computation fail. -/
theorem hourly_pass_failure_witness :
    hourCountsOf [(⟨"ab15", "Central", none⟩ : IncidentRecord)] =
      .error (intParseErr "ab15") := by
  have h := (hourly_pass_failure_spec [(⟨"ab15", "Central", none⟩ : IncidentRecord)]).mpr
    ⟨⟨"ab15", "Central", none⟩, List.mem_cons_self _ _, rfl⟩
  rcases h with ⟨e, he⟩
  rw [he]
  have : hourCountsOf [(⟨"ab15", "Central", none⟩ : IncidentRecord)] =
      .error (intParseErr "ab15") := rfl
  rw [this] at he
  cases he
  rfl

/-! ## Claim C9 — derivation of the hour field -/

/-- C9: on a table of well-formed 4-digit military times, line 34 derives
for every record exactly one hour — the integer encoded by the first two
characters of the zero-padded time string — and that hour lies in
[0, 23]. -/
theorem hour_derivation_spec (rs : List IncidentRecord)
    (h : ∀ r ∈ rs, MilitaryTime r.occurredTime) :
    extractHours rs =
      .ok (rs.map (fun r => ((digitsVal ((pyZfill 4 r.occurredTime.data).take 2) : Nat) : Int)))
    ∧ (rs.map (fun r =>
        ((digitsVal ((pyZfill 4 r.occurredTime.data).take 2) : Nat) : Int))).length = rs.length
    ∧ ∀ r ∈ rs,
        0 ≤ ((digitsVal ((pyZfill 4 r.occurredTime.data).take 2) : Nat) : Int)
        ∧ ((digitsVal ((pyZfill 4 r.occurredTime.data).take 2) : Nat) : Int) ≤ 23 := by
  have hz : ∀ r ∈ rs, pyZfill 4 r.occurredTime.data = r.occurredTime.data := by
    intro r hr
    have hlen := (h r hr).1
    simp only [pyZfill]
    rw [if_pos (by omega)]
  refine ⟨?_, List.length_map _ _, ?_⟩
  · apply extractHours_eq_map
    intro r hr
    rw [hz r hr]
    exact hourOf_military (h r hr).1 (h r hr).2.1
  · intro r hr
    rw [hz r hr]
    have hle := (h r hr).2.2
    constructor
    · exact Int.ofNat_nonneg _
    · exact_mod_cast hle

/-- C9, witness: the boundary times "0000" and "2359" derive hours 0 and
23. -/
theorem hour_derivation_witness :
    extractHours [⟨"0000", "Central", none⟩, ⟨"2359", "Central", none⟩] =
      .ok [(0 : Int), 23] := by
  have h := (hour_derivation_spec
    [⟨"0000", "Central", none⟩, ⟨"2359", "Central", none⟩]
    (by decide)).1
  exact h.trans rfl

/-! ## Claim C10 — purity of the aggregation passes -/

/-- C10: each aggregation pass is a pure read of the shared table: it
returns the state unchanged, re-running it yields the identical result, and
running one pass leaves the inputs of the others exactly as they were. -/
theorem aggregations_pure_spec (st : AnalysisState) :
    (hourlyPass st).2 = st ∧ (nightPass st).2 = st ∧ (agePass st).2 = st
    ∧ (hourlyPass (hourlyPass st).2).1 = (hourlyPass st).1
    ∧ (nightPass (nightPass st).2).1 = (nightPass st).1
    ∧ (agePass (agePass st).2).1 = (agePass st).1
    ∧ (hourlyPass (nightPass st).2).1 = (hourlyPass st).1
    ∧ (nightPass (agePass st).2).1 = (nightPass st).1
    ∧ (agePass (hourlyPass st).2).1 = (agePass st).1 :=
  ⟨rfl, rfl, rfl, rfl, rfl, rfl, rfl, rfl, rfl⟩

/-! ## Claim C8 — behaviour of the arg-maxes on empty aggregations -/

/-- C8, counterexample: a table whose only record has no victim age has
zero valid age rows, yet the script completes the whole run without any
failure — there is no arg-max over the age aggregation; it simply reports
all-zero brackets and 0 percentages. -/
theorem no_age_argmax_counterexample :
    (∀ r ∈ [(⟨"2300", "A", none⟩ : IncidentRecord)], bracketOf r.victAge = none)
    ∧ runAnalysis [⟨"2300", "A", none⟩] = .ok
      { hourCounts := [((23 : Int), 1)]
        peakHour := 23
        nightCounts := [("A", 1)]
        peakNightArea := "A"
        victimAgeCounts := [("0-17", 0), ("18-25", 0), ("26-34", 0), ("35-44", 0),
          ("45-54", 0), ("55-64", 0), ("65+", 0)]
        victimAgePercentages := [("0-17", 0), ("18-25", 0), ("26-34", 0), ("35-44", 0),
          ("45-54", 0), ("55-64", 0), ("65+", 0)]
        totalCrimes := 1 } := by
  exact ⟨by decide, rfl⟩

/-- C8 (amended): on a table with zero rows the hourly arg-max fails, and
with zero night-window rows the night arg-max fails (pandas `idxmax`
raises on an empty series); but zero valid age rows cause no failure — the
age pass computes no arg-max and reports all-zero brackets with all
percentages 0. -/
theorem empty_argmax_failure_spec :
    peakCrimeHour ([] : List IncidentRecord) = .error emptyArgmaxMsg
    ∧ (∀ t : List (IncidentRecord × Int),
        nightAreas t = [] → peakNightCrimeLocation t = none)
    ∧ ∀ rs : List IncidentRecord, (∀ r ∈ rs, bracketOf r.victAge = none) →
        victimAges rs = ageLabels.map (fun l => (l, (0 : Nat)))
        ∧ agePercentages rs = ageLabels.map (fun l => (l, (0 : ℚ))) := by
  refine ⟨rfl, ?_, ?_⟩
  · intro t h
    rw [peakNightCrimeLocation, nightCrimeByArea, h]
    rfl
  · intro rs h
    have hva : victimAges rs = ageLabels.map (fun l => (l, (0 : Nat))) := by
      rw [victimAges_eq]
      apply List.map_congr_left
      intro l _
      have hcnt : (ageGroups rs).count (some l) = 0 := by
        apply List.count_eq_zero.mpr
        intro hmem
        rw [ageGroups] at hmem
        rcases List.mem_map.mp hmem with ⟨r, hr, hrl⟩
        rw [h r hr] at hrl
        cases hrl
      rw [hcnt]
    have hsum : ((victimAges rs).map Prod.snd).sum = 0 := by
      rw [hva, List.map_map]
      simp [ageLabels]
    refine ⟨hva, ?_⟩
    simp only [agePercentages]
    rw [hsum]
    simp only [lt_self_iff_false, if_false]
    rw [hva, List.map_map]
    apply List.map_congr_left
    intro l _
    rfl

/-- C8, witness: the three amended statements at concrete inputs — the
empty table, a one-row table outside the night window, and a one-row table
whose victim age 0 is bracketed as NaN. -/
theorem empty_argmax_failure_witness :
    peakCrimeHour ([] : List IncidentRecord) = .error emptyArgmaxMsg
    ∧ peakNightCrimeLocation [((⟨"1200", "A", none⟩ : IncidentRecord), (12 : Int))] = none
    ∧ victimAges [(⟨"2300", "A", some 0⟩ : IncidentRecord)] =
        ageLabels.map (fun l => (l, (0 : Nat))) :=
  ⟨empty_argmax_failure_spec.1,
   empty_argmax_failure_spec.2.1 _ (by decide),
   (empty_argmax_failure_spec.2.2 _ (by decide)).1⟩

/-- C6, witness: the spec's scenario — ages [10, 20, 20, missing] still
report all 7 labels in the fixed order. -/
theorem age_output_labels_percentages_witness :
    (victimAges
      [⟨"0900", "A", some 10⟩, ⟨"0900", "A", some 20⟩,
       ⟨"0900", "A", some 20⟩, ⟨"0900", "A", none⟩]).map Prod.fst = ageLabels :=
  (age_output_labels_percentages_spec
    [⟨"0900", "A", some 10⟩, ⟨"0900", "A", some 20⟩,
     ⟨"0900", "A", some 20⟩, ⟨"0900", "A", none⟩]).1
